import Mathlib

/-!
Verification of the gloss-to-timeline pipeline of the
Speech-to-Indian-Sign-Language-Conversion repository.

The Python sources are shallowly embedded as executable Lean functions:
  * `src/modules/stage2_nlp.py`    — gloss reduction (`text_to_gloss_tokens`)
  * `src/modules/stage3_map.py`    — asset resolution (`token_to_assets`,
    `load_sign_dict`, `build_sign_timeline`)
  * `src/modules/stage2_emotion.py` — emotion annotation
    (`add_emotion_to_segments`)
  * `src/utils/cache_manager.py`   — stage cache (`load_stage_cache`,
    `save_stage_cache`, `clear_cache`)

External collaborators (the spaCy linguistic analysis, the emotion model,
the filesystem) are passed in as explicit function parameters, following
the specification, which treats them as pure capabilities.

Python string primitives (`str.upper`, `str.lower`, `str.strip`,
`str.isnumeric`) are embedded as structurally recursive functions over the
character list `String.data`, so that every definition evaluates inside
the kernel; they agree with the Python behaviour on the ASCII data this
pipeline handles.
-/

namespace Voice2Sign

/- ==================== Python string primitives ==================== -/

/-- Python `str.upper` (ASCII). -/
def pyUpper (s : String) : String := ⟨s.data.map Char.toUpper⟩

/-- Python `str.lower` (ASCII). -/
def pyLower (s : String) : String := ⟨s.data.map Char.toLower⟩

/-- Python `str.strip()`: remove leading and trailing whitespace. -/
def pyStrip (s : String) : String :=
  ⟨((s.data.dropWhile Char.isWhitespace).reverse.dropWhile
      Char.isWhitespace).reverse⟩

/-- Python `str.isnumeric` restricted to ASCII digits (the lemmas reaching
this check are ASCII). -/
def pyIsNumeric (s : String) : Bool :=
  !s.data.isEmpty && s.data.all Char.isDigit

/- ==================== stage2_nlp.py ==================== -/

/-- One token of the external linguistic analysis.  The specification treats
the analyzer as a pure function `analyze(text) -> ordered list of
{surface, lemma, pos, is_punct, is_space}`; the fields mirror the spaCy
token attributes used by `text_to_gloss_tokens`. -/
structure Tok where
  text : String
  lemma_ : String
  pos_ : String
  is_punct : Bool
  is_space : Bool
  deriving DecidableEq, Repr

/-- `BASE_STOP` from `stage2_nlp.py` (filler-word set). -/
def BASE_STOP : List String :=
  ["um", "uh", "like", "you_know", "i_mean", "basically", "literally"]

/-- The three negation words named at `stage2_nlp.py` lines 23 and 56. -/
def NEGATION_WORDS : List String := ["no", "not", "never"]

/-- `SPACY_STOP` from `stage2_nlp.py` lines 22-24: the analyzer's default
stop-word set (passed in as the predicate `spacyStop`) with the three
negation words discarded. -/
def SPACY_STOP (spacyStop : String → Bool) (w : String) : Bool :=
  spacyStop w && !(NEGATION_WORDS.contains w)

/-- The body of the per-token loop of `text_to_gloss_tokens`
(`stage2_nlp.py` lines 33-61): the (possibly empty) list of gloss tokens
appended to `toks` for one analyzer token. -/
def glossOfTok (spacyStop : String → Bool) (keep_negation : Bool) (t : Tok) :
    List String :=
  if t.is_space then []
  else if BASE_STOP.contains (pyLower t.text) then []
  else if t.is_punct then
    (if ([".", "!", "?", ";"] : List String).contains t.text then ["|"] else [])
  else
    let lem := pyStrip (pyLower t.lemma_)
    if lem = "" then []
    else if SPACY_STOP spacyStop lem then []
    else if pyIsNumeric lem then [pyUpper lem]
    else if keep_negation && NEGATION_WORDS.contains lem then [pyUpper lem]
    else if (["PROPN", "NOUN", "VERB", "ADJ", "ADV", "AUX", "PRON"] :
        List String).contains t.pos_ then [pyUpper lem]
    else []

/-- The pause-cleaning loop of `text_to_gloss_tokens` (`stage2_nlp.py`
lines 63-68).  The Boolean state `blockPause` is the loop condition
`not cleaned or cleaned[-1] == "|"`: it is `true` exactly when the output
built so far is empty or ends with the pause marker; an incoming pause
marker is skipped in that case, and any appended token makes the state
`tok == "|"`. -/
def cleanAux : Bool → List String → List String
  | _, [] => []
  | blockPause, tok :: rest =>
    if tok = "|" then
      (if blockPause then cleanAux blockPause rest
       else tok :: cleanAux true rest)
    else tok :: cleanAux false rest

/-- The `cleaned` list of `text_to_gloss_tokens`: initially empty, so the
skip state starts at `true`. -/
def cleanPauses (toks : List String) : List String :=
  cleanAux true toks

/-- `text_to_gloss_tokens` from `stage2_nlp.py`, over the output of the
external analyzer.  `toks` is the concatenation of the per-token emissions
in input order; the result is that list with redundant pauses cleaned. -/
def text_to_gloss_tokens (spacyStop : String → Bool) (analysis : List Tok)
    (keep_negation : Bool := true) : List String :=
  cleanPauses ((analysis.map (glossOfTok spacyStop keep_negation)).flatten)

/- ==================== lemmas about pause cleaning ==================== -/

theorem cleanAux_head_ne_pause (toks : List String) :
    (cleanAux true toks).head? ≠ some "|" := by
  induction toks with
  | nil => simp [cleanAux]
  | cons tok rest ih =>
    by_cases h : tok = "|"
    · simpa [cleanAux, h] using ih
    · simp [cleanAux, h]

theorem cleanAux_chain (toks : List String) (b : Bool) :
    List.Chain' (fun x y => ¬(x = "|" ∧ y = "|")) (cleanAux b toks) := by
  induction toks generalizing b with
  | nil => simp [cleanAux]
  | cons tok rest ih =>
    by_cases h : tok = "|"
    · cases b with
      | true => simpa [cleanAux, h] using ih true
      | false =>
        rw [cleanAux, if_pos h, if_neg (by simp)]
        rw [List.chain'_cons']
        refine ⟨?_, ih true⟩
        intro y hy hcon
        exact cleanAux_head_ne_pause rest (by rw [hy, hcon.2])
    · rw [cleanAux, if_neg h, List.chain'_cons']
      exact ⟨fun y _ hcon => h hcon.1, ih false⟩

theorem cleanAux_mem_of_ne_pause {x : String} (hx : x ≠ "|") :
    ∀ (toks : List String) (b : Bool), x ∈ toks → x ∈ cleanAux b toks := by
  intro toks
  induction toks with
  | nil => intro b h; cases h
  | cons tok rest ih =>
    intro b hmem
    rcases List.mem_cons.mp hmem with rfl | htail
    · rw [cleanAux, if_neg hx]
      exact List.mem_cons_self _ _
    · by_cases h : tok = "|"
      · cases b with
        | true =>
          rw [cleanAux, if_pos h, if_pos rfl]
          exact ih true htail
        | false =>
          rw [cleanAux, if_pos h, if_neg (by simp)]
          exact List.mem_cons_of_mem _ (ih true htail)
      · rw [cleanAux, if_neg h]
        exact List.mem_cons_of_mem _ (ih false htail)

/- ==================== C4 ==================== -/

/-- C4: for every analyzer output, stop-word set and flag value, the token
sequence returned by `text_to_gloss_tokens` never begins with a pause
marker and never contains two adjacent pause markers. -/
theorem gloss_tokens_no_leading_no_adjacent_pause
    (spacyStop : String → Bool) (analysis : List Tok) (keep_negation : Bool) :
    (text_to_gloss_tokens spacyStop analysis keep_negation).head? ≠ some "|" ∧
    List.Chain' (fun x y => ¬(x = "|" ∧ y = "|"))
      (text_to_gloss_tokens spacyStop analysis keep_negation) := by
  unfold text_to_gloss_tokens cleanPauses
  exact ⟨cleanAux_head_ne_pause _, cleanAux_chain _ _⟩

/- ==================== C5 ==================== -/

/-- A word the `stage2_nlp.py` module removed from the stop-word set
(lines 23-24) is never classified as a stop word, whatever the analyzer's
default list says. -/
theorem SPACY_STOP_false_of_negation (spacyStop : String → Bool) (w : String)
    (h : NEGATION_WORDS.contains w = true) :
    SPACY_STOP spacyStop w = false := by
  rw [SPACY_STOP, h]
  simp

/-- Facts about each concrete negation word, shared by the C5 proof:
nonempty, not numeric, removed from `SPACY_STOP`, recognized by the
negation check, and uppercased to a non-pause token. -/
theorem negation_word_facts (spacyStop : String → Bool) :
    ∀ lem ∈ NEGATION_WORDS,
      lem ≠ "" ∧ pyIsNumeric lem = false ∧
      SPACY_STOP spacyStop lem = false ∧
      NEGATION_WORDS.contains lem = true ∧ pyUpper lem ≠ "|" := by
  intro lem hmem
  fin_cases hmem <;>
    exact ⟨by decide, by decide,
      SPACY_STOP_false_of_negation spacyStop _ (by decide), by decide,
      by decide⟩

/-- C5: with `keep_negation = true`, an analyzer token whose stripped
lowercase lemma is one of the negation words `no`, `not`, `never` — and
which is not whitespace, not punctuation, and not a filler word — always
contributes its uppercase lemma to the output, for EVERY stop-word
predicate, in particular for ones that mark the negation words as stop
words (as the analyzer's standard list does). -/
theorem negation_words_retained
    (spacyStop : String → Bool) (analysis : List Tok) (t : Tok)
    (hmem : t ∈ analysis)
    (hspace : t.is_space = false)
    (hpunct : t.is_punct = false)
    (hfill : BASE_STOP.contains (pyLower t.text) = false)
    (hneg : pyStrip (pyLower t.lemma_) ∈ NEGATION_WORDS) :
    pyUpper (pyStrip (pyLower t.lemma_)) ∈
      text_to_gloss_tokens spacyStop analysis true := by
  obtain ⟨hne, hnum, hstop, hcontains, hnp⟩ :=
    negation_word_facts spacyStop _ hneg
  have hfill' : pyLower t.text ∉ BASE_STOP := by simpa using hfill
  have hemit : glossOfTok spacyStop true t
      = [pyUpper (pyStrip (pyLower t.lemma_))] := by
    simp [glossOfTok, hspace, hpunct, hfill', hne, hstop, hnum, hneg]
  have hraw : pyUpper (pyStrip (pyLower t.lemma_)) ∈
      ((analysis.map (glossOfTok spacyStop true)).flatten) :=
    List.mem_flatten.mpr
      ⟨[pyUpper (pyStrip (pyLower t.lemma_))],
        hemit ▸ List.mem_map_of_mem _ hmem, by simp⟩
  exact cleanAux_mem_of_ne_pause hnp _ true hraw

/-- Witness for C5 at a concrete input: a token with lemma `never`, under a
stop-word predicate that marks every word (including `never`) as a stop
word, still yields `NEVER` in the output. -/
theorem negation_words_retained_witness :
    "NEVER" ∈ text_to_gloss_tokens (fun _ => true)
      [⟨"never", "never", "ADV", false, false⟩] true :=
  negation_words_retained (fun _ => true) _
    ⟨"never", "never", "ADV", false, false⟩ (by simp)
    rfl rfl (by decide) (by decide)

/- ==================== C1 ==================== -/

/-- Modelled from the spec: the external linguistic analysis (spaCy
`en_core_web_sm`) of the sentence `"Stop! Never stop."` — five tokens:
the two `stop` verbs (lemma `stop`, pos `VERB`), the adverb `Never`
(lemma `never`, pos `ADV`), and the two sentence-final punctuation marks.
The analyzer itself is an out-of-scope collaborator (spec §4.1 step 1). -/
def stopNeverAnalysis : List Tok :=
  [⟨"Stop", "stop", "VERB", false, false⟩,
   ⟨"!", "!", "PUNCT", true, false⟩,
   ⟨"Never", "never", "ADV", false, false⟩,
   ⟨"stop", "stop", "VERB", false, false⟩,
   ⟨".", ".", "PUNCT", true, false⟩]

/-- Modelled from the spec: membership in the analyzer's standard (spaCy
default) stop-word list, restricted to the words relevant to the example
sentences; the negation words are in the standard list, `stop` is not. -/
def spacyDefaultStop (w : String) : Bool :=
  (["no", "not", "never", "a", "an", "the", "i", "you", "it", "is",
    "are", "to", "of", "and"] : List String).contains w

/-- C1 counterexample: on `"Stop! Never stop."` with `keep_negation = true`
the code emits TWO pause markers and the output ENDS with a pause marker,
refuting the claim that exactly one pause marker appears and that no
trailing pause appears (the cleanup loop strips only leading and adjacent
pauses, never a trailing one). -/
theorem stop_never_trailing_pause :
    "NEVER" ∈ text_to_gloss_tokens spacyDefaultStop stopNeverAnalysis true ∧
    (text_to_gloss_tokens spacyDefaultStop stopNeverAnalysis true).count "|"
      = 2 ∧
    (text_to_gloss_tokens spacyDefaultStop stopNeverAnalysis true).getLast?
      = some "|" := by
  decide

/-- C1 amended: on `"Stop! Never stop."` with `keep_negation = true` the
output is `[STOP, |, NEVER, STOP, |]`: it contains `NEVER`, contains
exactly two pause markers — one between the two sentences and one
trailing — and ends with the trailing pause marker. -/
theorem stop_never_gloss_eval :
    text_to_gloss_tokens spacyDefaultStop stopNeverAnalysis true
      = ["STOP", "|", "NEVER", "STOP", "|"] := by
  decide

/- ==================== stage3_map.py ==================== -/

/-- The `AssetDescriptor` variants produced by `token_to_assets`
(`stage3_map.py`): the Python dictionaries tagged `pause`, `image`,
`fingerspell` and `text`. -/
inductive Asset where
  | pause (dur : ℚ)
  | image (path : String) (label : String)
  | fingerspell (label : String) (char : Char)
  | text (label : String)
  deriving DecidableEq, Repr

/-- `ALPHABET` from `stage3_map.py` line 44:
`{c: f"FINGERSPELL_{c}" for c in "ABCDEFGHIJKLMNOPQRSTUVWXYZ"}`. -/
def ALPHABET : List (Char × String) :=
  "ABCDEFGHIJKLMNOPQRSTUVWXYZ".data.map (fun c => (c, "FINGERSPELL_".push c))

/-- The fingerspelling loop of `token_to_assets` (`stage3_map.py` lines
64-67): one `fingerspell` descriptor per character of the (already
uppercased) token that is a key of `ALPHABET`, in character order. -/
def fingerspellAssets (token : String) : List Asset :=
  token.data.filterMap (fun ch =>
    (List.lookup ch ALPHABET).map (fun lab => Asset.fingerspell lab ch))

/-- `token_to_assets` from `stage3_map.py` lines 50-73.  The `mapping`
dictionary is an association list; `str(Path(p))` is embedded as `p`
itself (the mapping values are already normalized path strings). -/
def token_to_assets (token : String) (mapping : List (String × String)) :
    List Asset :=
  let token := pyUpper token
  if token = "|" then [Asset.pause 0.4]
  else
    match List.lookup token mapping with
    | some path => [Asset.image path token]
    | none =>
      let assets := fingerspellAssets token
      if assets.isEmpty then [Asset.text token] else assets

/- ==================== C2 ==================== -/

/-- The uppercase Latin letters A-Z, for the specification-side resolver
description. -/
def UPPER_AZ : List Char := "ABCDEFGHIJKLMNOPQRSTUVWXYZ".data

/-- Resolver policy exactly as claim C2 words it (three tiers, first match
wins; casing normalized before lookup and character decomposition per spec
§4.2): pause marker → one `Pause{0.4}`; indexed token → one `Image`;
otherwise one `Fingerspell` per A-Z character, others skipped — with NO
text fallback tier. -/
def resolveClaimThreeTier (token : String)
    (assetIndex : List (String × String)) : List Asset :=
  let up := pyUpper token
  if up = "|" then [Asset.pause 0.4]
  else
    match List.lookup up assetIndex with
    | some path => [Asset.image path up]
    | none =>
      (up.data.filter (fun c => UPPER_AZ.contains c)).map
        (fun c => Asset.fingerspell ("FINGERSPELL_".push c) c)

/-- Resolver policy as amended: as `resolveClaimThreeTier`, plus the
fourth tier — if no character of the uppercased token is an uppercase
Latin letter, the result is a single `Text` descriptor labelled with the
uppercased token. -/
def resolveClaimFourTier (token : String)
    (assetIndex : List (String × String)) : List Asset :=
  let up := pyUpper token
  if up = "|" then [Asset.pause 0.4]
  else
    match List.lookup up assetIndex with
    | some path => [Asset.image path up]
    | none =>
      let fs := (up.data.filter (fun c => UPPER_AZ.contains c)).map
        (fun c => Asset.fingerspell ("FINGERSPELL_".push c) c)
      if fs = [] then [Asset.text up] else fs

theorem lookup_map_mk (f : Char → String) (c : Char) :
    ∀ l : List Char,
      List.lookup c (l.map (fun a => (a, f a)))
        = if l.contains c then some (f c) else none := by
  intro l
  induction l with
  | nil => simp
  | cons a t ih =>
    by_cases h : c = a
    · subst h
      simp [List.lookup]
    · have hba : (c == a) = false := by simp [h]
      simp [List.lookup, hba, ih, List.contains_cons, h]

theorem filterMap_guard_eq_filter_map {α β : Type} (p : α → Bool)
    (g : α → β) (l : List α) :
    l.filterMap (fun c => if p c then some (g c) else none)
      = (l.filter p).map g := by
  induction l with
  | nil => rfl
  | cons a t ih =>
    by_cases h : p a <;>
      simp [List.filterMap_cons, List.filter_cons, h, ih]

/-- The fingerspelling loop is exactly: keep the A-Z characters, emit one
`fingerspell` per kept character. -/
theorem fingerspellAssets_eq (token : String) :
    fingerspellAssets token
      = (token.data.filter (fun c => UPPER_AZ.contains c)).map
          (fun c => Asset.fingerspell ("FINGERSPELL_".push c) c) := by
  unfold fingerspellAssets ALPHABET
  rw [← filterMap_guard_eq_filter_map]
  apply List.filterMap_congr
  intro ch _
  rw [lookup_map_mk]
  simp only [UPPER_AZ]
  by_cases h : ("ABCDEFGHIJKLMNOPQRSTUVWXYZ".data).contains ch <;> simp [h]

/-- C2 counterexample: for token `"9"` with an empty asset index the code
returns the `Text` fallback, while the three-tier policy of the claim
(one fingerspell per A-Z character, others skipped) prescribes the empty
list — so the claim as stated is false at this input. -/
theorem token_to_assets_nine_not_three_tier :
    token_to_assets "9" [] ≠ resolveClaimThreeTier "9" [] ∧
    token_to_assets "9" [] = [Asset.text "9"] ∧
    resolveClaimThreeTier "9" [] = ([] : List Asset) := by
  refine ⟨?_, by decide, by decide⟩
  decide

/-- C2 amended: `token_to_assets` implements the first-match-wins policy
with FOUR tiers: pause marker → single `Pause{0.4}`; uppercased token in
the index → single `Image{path, label = uppercased token}`; else one
`Fingerspell` per A-Z character of the uppercased token in left-to-right
order with other characters skipped; and if no character qualifies, a
single `Text{label = uppercased token}`. -/
theorem token_to_assets_four_tier (token : String)
    (mapping : List (String × String)) :
    token_to_assets token mapping = resolveClaimFourTier token mapping := by
  unfold token_to_assets resolveClaimFourTier
  by_cases h : pyUpper token = "|"
  · simp [h]
  · simp only [h, if_false]
    cases hl : List.lookup (pyUpper token) mapping with
    | some path => simp
    | none =>
      simp only [fingerspellAssets_eq]
      by_cases he :
          ((pyUpper token).data.filter (fun c => UPPER_AZ.contains c)).map
            (fun c => Asset.fingerspell ("FINGERSPELL_".push c) c) = []
      · simp [he]
      · simp [he, List.isEmpty_iff]

/- ==================== C3 ==================== -/

/-- C3: `token_to_assets` is total (the Lean embedding returns a plain
list, never an exception) and never returns the empty list; and when the
pause tier, the index lookup and the fingerspelling loop all produce
nothing, the result is exactly one `Text` descriptor labelled with the
uppercased token. -/
theorem token_to_assets_nonempty_text_fallback (token : String)
    (mapping : List (String × String)) :
    token_to_assets token mapping ≠ [] ∧
    (pyUpper token ≠ "|" →
      List.lookup (pyUpper token) mapping = none →
      fingerspellAssets (pyUpper token) = [] →
      token_to_assets token mapping = [Asset.text (pyUpper token)]) := by
  constructor
  · unfold token_to_assets
    by_cases h : pyUpper token = "|"
    · simp [h]
    · simp only [h, if_false]
      cases hl : List.lookup (pyUpper token) mapping with
      | some path => simp
      | none =>
        by_cases he : (fingerspellAssets (pyUpper token)).isEmpty
        · simp [he]
        · simp only [he, Bool.false_eq_true, if_false]
          simpa [List.isEmpty_iff] using he
  · intro hp hl hf
    unfold token_to_assets
    simp [hp, hl, hf]

/-- Witness for C3 at the concrete input from the claim: token `"9"` with
an empty index resolves to exactly `[Text{label="9"}]`. -/
theorem token_to_assets_nonempty_text_fallback_witness :
    token_to_assets "9" [] = [Asset.text "9"] :=
  (token_to_assets_nonempty_text_fallback "9" []).2
    (by decide) (by decide) (by decide)

/- ==================== timeline build (stage3_map.py) ==================== -/

/-- The emotion value attached by stage 2: `{label, score}`. -/
structure Emo where
  label : String
  score : ℚ
  deriving DecidableEq, Repr

/-- An input segment of `build_sign_timeline`: the gloss-and-emotion
enriched segment dictionaries of stages 1-2 (`id`, `start`, `end`, `text`,
`gloss`, `emotion`); `emotion` is `none` when the key is absent (the code
then defaults to the empty dict `{}` via `seg.get("emotion", {})`). -/
structure TSeg where
  id : Int
  start : ℚ
  end_ : ℚ
  text : String
  gloss : List String
  emotion : Option Emo
  deriving Repr

/-- One timeline entry built by `build_sign_timeline` (`stage3_map.py`
lines 90-98). -/
structure TimelineEntry where
  id : Int
  start : ℚ
  end_ : ℚ
  text : String
  gloss : List String
  emotion : Option Emo
  items : List Asset
  deriving Repr

/-- `build_sign_timeline` from `stage3_map.py` lines 79-103, with the
asset index (built once per invocation from the dataset directory) passed
in as `mapping`.  The per-segment loop appends exactly one entry per
segment; `seg_items` extends with the assets of every gloss token in
order. -/
def build_sign_timeline (mapping : List (String × String))
    (segs : List TSeg) : List TimelineEntry :=
  segs.map (fun seg =>
    { id := seg.id, start := seg.start, end_ := seg.end_, text := seg.text,
      gloss := seg.gloss, emotion := seg.emotion,
      items := (seg.gloss.map (fun tok => token_to_assets tok mapping)).flatten })

/-- C6: `build_sign_timeline` produces exactly one entry per input
segment, in input order, carrying through id/start/end/text/gloss/emotion
unchanged; `items` is only the concatenation of the per-token asset
resolutions, so a segment with an empty gloss list still yields an entry,
with `items = []`. -/
theorem build_sign_timeline_entrywise (mapping : List (String × String))
    (segs : List TSeg) :
    (build_sign_timeline mapping segs).length = segs.length ∧
    List.Forall₂ (fun (seg : TSeg) (e : TimelineEntry) =>
        e.id = seg.id ∧ e.start = seg.start ∧ e.end_ = seg.end_ ∧
        e.text = seg.text ∧ e.gloss = seg.gloss ∧ e.emotion = seg.emotion ∧
        e.items = (seg.gloss.map (fun tok => token_to_assets tok mapping)).flatten ∧
        (seg.gloss = [] → e.items = []))
      segs (build_sign_timeline mapping segs) := by
  constructor
  · simp [build_sign_timeline]
  · rw [build_sign_timeline, List.forall₂_map_right_iff]
    refine List.forall₂_same.mpr (fun seg _ => ?_)
    refine ⟨rfl, rfl, rfl, rfl, rfl, rfl, rfl, fun h => ?_⟩
    simp [h]

/- ==================== load_sign_dict (stage3_map.py) ==================== -/

/-- Python dict assignment `d[k] = v`: replace the value at an existing
key in place, else append the new pair at the end. -/
def pyDictSet {α : Type} : List (String × α) → String → α → List (String × α)
  | [], k, v => [(k, v)]
  | (k', v') :: rest, k, v =>
    if k' = k then (k, v) :: rest else (k', v') :: pyDictSet rest k v

/-- Python `pathlib` suffix rule (`PurePath.suffix`): the substring from
the last dot, provided that dot is neither the first nor the last
character of the name; otherwise the empty string. -/
def pySuffix (name : String) : String :=
  let cs := name.data
  match cs.reverse.findIdx? (fun c => c = '.') with
  | some j =>
    let i := cs.length - 1 - j
    if 0 < i ∧ i < cs.length - 1 then ⟨cs.drop i⟩ else ""
  | none => ""

/-- One entry of the dataset directory listing: a child of
`datasets/data` with its name, whether it is a directory, and the names
of the files inside it in iteration order. -/
structure SignFolder where
  name : String
  is_dir : Bool
  files : List String
  deriving Repr

/-- The media suffixes accepted at `stage3_map.py` line 33. -/
def MEDIA_SUFFIXES : List String := [".jpg", ".png", ".mp4", ".gif"]

/-- `load_sign_dict` from `stage3_map.py` lines 23-38.  The dataset root
is `none` when `dataset_path.exists()` is false (the directory is
missing), otherwise the directory listing.  For each subdirectory, the
first contained file with a media suffix becomes the representative
(`break` after the first hit ≡ `find?`). -/
def load_sign_dict (dataset : Option (List SignFolder)) :
    List (String × String) :=
  match dataset with
  | none => []
  | some folders =>
    folders.foldl (fun mapping folder =>
      if folder.is_dir then
        match folder.files.find? (fun file =>
            MEDIA_SUFFIXES.contains (pyLower (pySuffix file))) with
        | some file => pyDictSet mapping (pyUpper folder.name) file
        | none => mapping
      else mapping) []

/-- The descriptor kinds a token can resolve to without any dataset: the
fingerspelling tier and the literal text tier. -/
def isFallbackAsset : Asset → Bool
  | .fingerspell _ _ => true
  | .text _ => true
  | _ => false

theorem fingerspellAssets_all_fingerspell (s : String) :
    ∀ a ∈ fingerspellAssets s, isFallbackAsset a = true := by
  intro a ha
  obtain ⟨ch, _, hch⟩ := List.mem_filterMap.mp ha
  obtain ⟨lab, _, rfl⟩ := Option.map_eq_some'.mp hch
  rfl

/-- C8: a missing dataset root directory degrades to the empty index
without raising, and with the empty index every non-pause token still
resolves non-emptily, through the fingerspelling or text fallback only,
so the timeline build completes with one entry per segment. -/
theorem missing_dataset_degrades (token : String)
    (htok : pyUpper token ≠ "|") :
    load_sign_dict none = [] ∧
    token_to_assets token [] ≠ [] ∧
    (∀ a ∈ token_to_assets token [], isFallbackAsset a = true) ∧
    (∀ segs : List TSeg,
      (build_sign_timeline [] segs).length = segs.length) := by
  refine ⟨rfl, ?_, ?_, fun segs => by simp [build_sign_timeline]⟩
  · unfold token_to_assets
    simp only [htok, if_false, List.lookup]
    by_cases he : (fingerspellAssets (pyUpper token)).isEmpty
    · simp [he]
    · simp only [he, Bool.false_eq_true, if_false]
      simpa [List.isEmpty_iff] using he
  · intro a ha
    unfold token_to_assets at ha
    simp only [htok, if_false, List.lookup] at ha
    by_cases he : (fingerspellAssets (pyUpper token)).isEmpty
    · simp only [he, if_true] at ha
      obtain rfl := List.mem_singleton.mp ha
      rfl
    · simp only [he, Bool.false_eq_true, if_false] at ha
      exact fingerspellAssets_all_fingerspell _ a ha

/-- Witness for C8 at a concrete input: with the empty index the token
`XY9` still resolves to a non-empty descriptor list. -/
theorem missing_dataset_degrades_witness :
    token_to_assets "XY9" [] ≠ [] :=
  (missing_dataset_degrades "XY9" (by decide)).2.1

/- ==================== cache_manager.py ==================== -/

/-- Outcome of reading a file: the path does not exist, the read raised
an I/O error, or the raw file contents were obtained. -/
inductive FileRead where
  | absent
  | ioError
  | content (s : String)

/-- Outcome of opening-and-writing a file. -/
inductive WriteOutcome where
  | ok
  | ioError

/-- The per-stage cache file name, `cache_manager.py` lines 62 and 75:
`f"video_{video_id}_stage_{stage}.json"`. -/
def stage_cache_file (video_id stage : String) : String :=
  "video_" ++ video_id ++ "_stage_" ++ stage ++ ".json"

/-- The combined cache file name, `cache_manager.py` lines 19-26:
`f"video_{video_id}.json"`. -/
def cache_file (video_id : String) : String :=
  "video_" ++ video_id ++ ".json"

/-- `CacheManager.load_stage_cache` (`cache_manager.py` lines 73-85).
The filesystem is the function `read`; JSON decoding is the function
`parseJson`.  The existence check returns `None` before the `try` block;
inside it, an I/O error or a parse error is caught and becomes `None`.
The return type `Option α` has no error constructor: no exception
escapes. -/
def load_stage_cache {α : Type} (read : String → FileRead)
    (parseJson : String → Except String α) (video_id stage : String) :
    Option α :=
  match read (stage_cache_file video_id stage) with
  | .absent => none
  | .ioError => none
  | .content s =>
    match parseJson s with
    | .ok payload => some payload
    | .error _ => none

/-- `CacheManager.save_stage_cache` (`cache_manager.py` lines 60-71): a
write failure is caught and turned into `False`; the return type `Bool`
has no error constructor. -/
def save_stage_cache {α : Type} (write : String → α → WriteOutcome)
    (video_id stage : String) (data : α) : Bool :=
  match write (stage_cache_file video_id stage) data with
  | .ok => true
  | .ioError => false

/- ==================== C7 ==================== -/

/-- C7: stage-cache failures are absorbed at the cache boundary — a read
I/O error, a malformed payload and a missing file all make
`load_stage_cache` return `none` (a miss), and a write failure makes
`save_stage_cache` return `false`; both functions are total with
exception-free return types, so no failure propagates. -/
theorem stage_cache_absorbs_failures {α : Type}
    (read : String → FileRead) (parseJson : String → Except String α)
    (write : String → α → WriteOutcome) (video_id stage : String) :
    (read (stage_cache_file video_id stage) = .ioError →
      load_stage_cache read parseJson video_id stage = none) ∧
    (∀ s e, read (stage_cache_file video_id stage) = .content s →
      parseJson s = .error e →
      load_stage_cache read parseJson video_id stage = none) ∧
    (read (stage_cache_file video_id stage) = .absent →
      load_stage_cache read parseJson video_id stage = none) ∧
    (∀ data : α, write (stage_cache_file video_id stage) data = .ioError →
      save_stage_cache write video_id stage data = false) := by
  refine ⟨fun h => ?_, fun s e hr hp => ?_, fun h => ?_, fun data h => ?_⟩
  · simp [load_stage_cache, h]
  · simp [load_stage_cache, hr, hp]
  · simp [load_stage_cache, h]
  · simp [save_stage_cache, h]

/-- Witness for C7 at concrete inputs: an always-failing filesystem and a
parser that rejects everything give a cache miss on load and `false` on
save. -/
theorem stage_cache_absorbs_failures_witness :
    load_stage_cache (fun _ => FileRead.ioError)
      (fun _ => (Except.error "bad" : Except String Nat)) "vid" "gloss"
      = none ∧
    save_stage_cache (fun _ (_ : Nat) => WriteOutcome.ioError)
      "vid" "gloss" 0 = false :=
  ⟨(stage_cache_absorbs_failures (fun _ => FileRead.ioError)
      (fun _ => (Except.error "bad" : Except String Nat))
      (fun _ (_ : Nat) => WriteOutcome.ioError) "vid" "gloss").1 rfl,
   (stage_cache_absorbs_failures (fun _ => FileRead.ioError)
      (fun _ => (Except.error "bad" : Except String Nat))
      (fun _ (_ : Nat) => WriteOutcome.ioError) "vid" "gloss").2.2.2 0 rfl⟩

/- ==================== C10 ==================== -/

/-- The glob pattern `*.json` of `cache_manager.py` line 103, as a
predicate on file names. -/
def matchesJsonGlob (f : String) : Bool :=
  (".json".data).isSuffixOf f.data

/-- `CacheManager.clear_cache` (`cache_manager.py` lines 92-109) over the
set of file names in the cache directory.  `if video_id:` is Python
truthiness: both `None` and the empty string take the clear-all branch.
With a truthy id, only the combined file is unlinked and only when it
exists (in which case `True` is returned; otherwise the function falls
through and returns `None`).  The clear-all branch unlinks every name
matching `*.json` and returns `True`.  Unlink failures are not modelled
(the claim does not concern them). -/
def clear_cache (files : List String) (video_id : Option String) :
    Option Bool × List String :=
  match video_id with
  | some vid =>
    if vid = "" then (some true, files.filter (fun f => !matchesJsonGlob f))
    else if cache_file vid ∈ files then
      (some true, files.erase (cache_file vid))
    else (none, files)
  | none => (some true, files.filter (fun f => !matchesJsonGlob f))

/-- A per-stage cache file name is never the combined cache file name of
the same video id (the stage name inserts at least `_stage_`). -/
theorem stage_cache_file_ne_cache_file (vid stage : String) :
    stage_cache_file vid stage ≠ cache_file vid := by
  intro h
  have hlen := congrArg String.length h
  have e1 : "video_".length = 6 := rfl
  have e2 : "_stage_".length = 7 := rfl
  have e3 : ".json".length = 5 := rfl
  simp only [stage_cache_file, cache_file, String.length_append,
    e1, e2, e3] at hlen
  omega

theorem matchesJsonGlob_append (s : String) :
    matchesJsonGlob (s ++ ".json") = true := by
  unfold matchesJsonGlob
  rw [String.data_append]
  exact List.isSuffixOf_iff_suffix.mpr (List.suffix_append _ _)

/-- C10: with a (truthy) specific video id, `clear_cache` deletes only the
combined file `video_<id>.json` — every per-stage file
`video_<id>_stage_<stage>.json` stays on disk — and when the combined file
is absent it deletes nothing and does not return `True` (it returns
`None`).  With no video id it returns `True` and deletes every file
matching `*.json`, which includes every per-stage file. -/
theorem clear_cache_scoped (files : List String) (vid stage : String)
    (hvid : vid ≠ "") :
    (cache_file vid ∈ files →
      (clear_cache files (some vid)).1 = some true ∧
      (clear_cache files (some vid)).2 = files.erase (cache_file vid) ∧
      (stage_cache_file vid stage ∈ files →
        stage_cache_file vid stage ∈ (clear_cache files (some vid)).2)) ∧
    (cache_file vid ∉ files → clear_cache files (some vid) = (none, files)) ∧
    (clear_cache files none).1 = some true ∧
    (∀ f ∈ files, matchesJsonGlob f = true →
      f ∉ (clear_cache files none).2) ∧
    matchesJsonGlob (stage_cache_file vid stage) = true := by
  refine ⟨fun hmem => ?_, fun hmem => ?_, rfl, fun f hf hglob hfres => ?_, ?_⟩
  · simp only [clear_cache]
    rw [if_neg hvid, if_pos hmem]
    exact ⟨rfl, rfl, fun hst =>
      (List.mem_erase_of_ne (stage_cache_file_ne_cache_file vid stage)).mpr
        hst⟩
  · simp only [clear_cache]
    rw [if_neg hvid, if_neg hmem]
  · simp only [clear_cache] at hfres
    have := (List.mem_filter.mp hfres).2
    simp [hglob] at this
  · exact matchesJsonGlob_append _

/-- Witness for C10 at a concrete cache state: clearing video `abc` keeps
its per-stage gloss cache file on disk. -/
theorem clear_cache_scoped_witness :
    "video_abc_stage_gloss.json" ∈
      (clear_cache ["video_abc.json", "video_abc_stage_gloss.json"]
        (some "abc")).2 :=
  ((clear_cache_scoped ["video_abc.json", "video_abc_stage_gloss.json"]
      "abc" "gloss" (by decide)).1 (by decide)).2.2 (by decide)

/- ==================== stage2_emotion.py ==================== -/

/-- A JSON-like value, for the dictionary-shaped segments flowing through
`add_emotion_to_segments` (the claim is about arbitrary key-value pairs,
so segments are modelled as dictionaries, not fixed records). -/
inductive JVal where
  | null
  | bool (b : Bool)
  | num (q : ℚ)
  | str (s : String)
  | arr (xs : List JVal)
  | obj (fields : List (String × JVal))

/-- A segment dictionary. -/
abbrev Seg : Type := List (String × JVal)

/-- `seg.get("text", "")` followed by `.strip()`-readiness: the value is
returned when it is a string, the default `""` when the key is absent, and
`none` marks the case where `.strip()` would raise (non-string value). -/
def getText (seg : Seg) : Option String :=
  match List.lookup "text" seg with
  | none => some ""
  | some (JVal.str s) => some s
  | some _ => none

/-- The segment has either no `"text"` key or a string-valued one, so
`seg.get("text", "").strip()` cannot raise. -/
def textWF (seg : Seg) : Bool :=
  match List.lookup "text" seg with
  | none => true
  | some (JVal.str _) => true
  | some _ => false

/-- The emotion dict `{"label": "neutral", "score": 0.0}` used both for
empty segments and for an empty score list. -/
def neutralEmotionVal : JVal :=
  .obj [("label", JVal.str "neutral"), ("score", JVal.num 0)]

/-- Python `max(scores, key=lambda x: x["score"])`: the first entry with
maximal score (ties keep the earlier entry), `none` on an empty list. -/
def pymax (xs : List (String × ℚ)) : Option (String × ℚ) :=
  xs.foldl (fun acc x =>
    match acc with
    | none => some x
    | some a => if a.2 < x.2 then some x else some a) none

/-- The per-segment body of `add_emotion_to_segments`
(`stage2_emotion.py` lines 37-51), with the emotion classifier passed in
as `emo : text ↦ scored labels`.  `dict(seg)` followed by
`seg_out["emotion"] = ...` is `pyDictSet`; a whitespace-only text skips
the classifier and attaches the neutral emotion; otherwise the top-scored
label is attached (neutral again when the classifier returns no scores).
`none` models the `TypeError` raised by `.strip()` on a non-string
text value. -/
def addEmoSeg (emo : String → List (String × ℚ)) (seg : Seg) : Option Seg :=
  match getText seg with
  | none => none
  | some raw =>
    let text := pyStrip raw
    if text = "" then
      some (pyDictSet seg "emotion" neutralEmotionVal)
    else
      match pymax (emo text) with
      | some top =>
        some (pyDictSet seg "emotion"
          (JVal.obj [("label", JVal.str top.1), ("score", JVal.num top.2)]))
      | none => some (pyDictSet seg "emotion" neutralEmotionVal)

/-- `add_emotion_to_segments` over the segment list: the loop appends one
output segment per input segment, in order. -/
def add_emotion_to_segments (emo : String → List (String × ℚ)) :
    List Seg → Option (List Seg)
  | [] => some []
  | seg :: rest =>
    match addEmoSeg emo seg, add_emotion_to_segments emo rest with
    | some s, some r => some (s :: r)
    | _, _ => none

/- ==================== pyDictSet lemmas ==================== -/

theorem pyDictSet_lookup {α : Type} (d : List (String × α)) (k : String)
    (v : α) : List.lookup k (pyDictSet d k v) = some v := by
  induction d with
  | nil => simp [pyDictSet, List.lookup]
  | cons kv rest ih =>
    obtain ⟨k', v'⟩ := kv
    by_cases h : k' = k
    · subst h
      simp [pyDictSet, List.lookup]
    · have hbe : (k == k') = false := by
        simp [Ne.symm h]
      simp [pyDictSet, h, List.lookup, hbe, ih]

theorem pyDictSet_mem_iff {α : Type} (d : List (String × α)) (k : String)
    (v : α) (k' : String) (v' : α) (h : k' ≠ k) :
    ((k', v') ∈ pyDictSet d k v) ↔ (k', v') ∈ d := by
  induction d with
  | nil => simp [pyDictSet, h]
  | cons kv rest ih =>
    obtain ⟨a, b⟩ := kv
    by_cases ha : a = k
    · subst ha
      simp [pyDictSet, h, Ne.symm h]
    · simp only [pyDictSet, if_neg ha]
      simp [ih]

/- ==================== C9 ==================== -/

/-- Per-segment guarantee behind C9. -/
theorem addEmoSeg_spec (emo : String → List (String × ℚ)) (seg : Seg)
    (h : textWF seg = true) :
    ∃ o, addEmoSeg emo seg = some o ∧
      (∀ k v, k ≠ "emotion" → (((k, v) ∈ seg) ↔ (k, v) ∈ o)) ∧
      (List.lookup "emotion" o).isSome = true ∧
      (∀ t, getText seg = some t → pyStrip t = "" →
        List.lookup "emotion" o = some neutralEmotionVal) := by
  have hg : ∃ raw, getText seg = some raw := by
    unfold textWF at h
    unfold getText
    cases hl : List.lookup "text" seg with
    | none => exact ⟨"", rfl⟩
    | some jv => cases jv <;> simp [hl] at h ⊢
  obtain ⟨raw, hraw⟩ := hg
  have hmem : ∀ v, (∀ k v', k ≠ "emotion" →
      (((k, v') ∈ seg) ↔ (k, v') ∈ pyDictSet seg "emotion" v)) :=
    fun v k v' hk => (pyDictSet_mem_iff seg "emotion" v k v' hk).symm
  by_cases he : pyStrip raw = ""
  · refine ⟨pyDictSet seg "emotion" neutralEmotionVal, ?_, hmem _, ?_, ?_⟩
    · simp [addEmoSeg, hraw, he]
    · simp [pyDictSet_lookup]
    · intro t ht _
      exact pyDictSet_lookup seg "emotion" neutralEmotionVal
  · have htr : ∀ t, getText seg = some t → pyStrip t = "" → False := by
      intro t ht htr
      rw [hraw] at ht
      injection ht with ht
      exact he (ht ▸ htr)
    cases pm : pymax (emo (pyStrip raw)) with
    | some top =>
      refine ⟨pyDictSet seg "emotion"
          (JVal.obj [("label", JVal.str top.1), ("score", JVal.num top.2)]),
        ?_, hmem _, by simp [pyDictSet_lookup],
        fun t ht h3 => (htr t ht h3).elim⟩
      simp [addEmoSeg, hraw, he, pm]
    | none =>
      refine ⟨pyDictSet seg "emotion" neutralEmotionVal, ?_, hmem _,
        by simp [pyDictSet_lookup],
        fun t ht _ => pyDictSet_lookup seg "emotion" neutralEmotionVal⟩
      simp [addEmoSeg, hraw, he, pm]

/-- C9: when every segment's `"text"` value is a string (so `.strip()`
cannot raise), `add_emotion_to_segments` returns exactly one output
segment per input segment, in input order; each output segment preserves
every original key-value pair other than `"emotion"` in both directions
(nothing else is added or dropped), always carries an `"emotion"` key, and
a segment whose text is empty or whitespace-only is retained and receives
the emotion `{label: "neutral", score: 0.0}`. -/
theorem add_emotion_segmentwise (emo : String → List (String × ℚ))
    (segs : List Seg) (hwf : ∀ seg ∈ segs, textWF seg = true) :
    ∃ out, add_emotion_to_segments emo segs = some out ∧
      out.length = segs.length ∧
      List.Forall₂ (fun (seg : Seg) (o : Seg) =>
        (∀ k v, k ≠ "emotion" → (((k, v) ∈ seg) ↔ (k, v) ∈ o)) ∧
        (List.lookup "emotion" o).isSome = true ∧
        (∀ t, getText seg = some t → pyStrip t = "" →
          List.lookup "emotion" o = some neutralEmotionVal)) segs out := by
  induction segs with
  | nil => exact ⟨[], rfl, rfl, List.Forall₂.nil⟩
  | cons seg rest ih =>
    obtain ⟨o, ho, hpres, hemo, hneut⟩ :=
      addEmoSeg_spec emo seg (hwf seg (List.mem_cons_self _ _))
    obtain ⟨out, hout, hlen, hf2⟩ :=
      ih (fun s hs => hwf s (List.mem_cons_of_mem _ hs))
    refine ⟨o :: out, ?_, by simp [hlen], List.Forall₂.cons ⟨hpres, hemo, hneut⟩ hf2⟩
    simp [add_emotion_to_segments, ho, hout]

/-- Witness for C9 at a concrete input: one whitespace-only segment, under
a classifier that returns no scores, is processed successfully. -/
theorem add_emotion_segmentwise_witness :
    (add_emotion_to_segments (fun _ => [])
      [[("id", JVal.num 1), ("text", JVal.str " ")]]).isSome = true := by
  obtain ⟨out, hout, -, -⟩ :=
    add_emotion_segmentwise (fun _ => [])
      [[("id", JVal.num 1), ("text", JVal.str " ")]]
      (by
        intro s hs
        rw [List.mem_singleton] at hs
        subst hs
        rfl)
  rw [hout]
  rfl

end Voice2Sign
